import Mathlib

/-!
Ignition volume provisioning (`libvirt/coreos_ignition_def.go`).

A shallow embedding of the ignition provisioning code of the libvirt provider:
the identifier codec (`buildTerraformKey`, `getIgnitionVolumeKeyFromTerraformID`),
the content resolver (`createFile`), the provisioner (`CreateAndUpload`) and the
reverse resolution (`newIgnitionDefFromRemoteVol`).

Go strings are embedded as Lean `String`s, file contents as lists of bytes.
The local filesystem is an explicit state, the outcomes of the calls that leave
the program (backend RPCs, system calls, the random UUID) are read from an
environment record, and the calls a run issues are recorded in a trace.
-/

namespace Ignition

/-! ## Errors -/

/-- One constructor per `fmt.Errorf` site (or propagated error) of the file. -/
inductive Err where
  /-- Error `fmt.Errorf(LibVirtConIsNil)` -/
  | libVirtConIsNil
  /-- Error `can't find storage pool '%s'` -/
  | cantFindPool (poolName : String)
  /-- the error returned by `waitForSuccess("Error refreshing pool for volume", ...)` -/
  | refreshingPool
  /-- Error `error creating tmp file: %w` -/
  | creatingTmpFile
  /-- Error `coreos_ignition 'content' is neither a file nor a valid json object %s` -/
  | invalidContent (content : String)
  /-- Error `cannot write Ignition object to temporary ignition file` -/
  | cannotWrite
  /-- Error `error opening supplied Ignition file %s` -/
  | openingFile (content : String)
  /-- Error `error copying supplied Igition file to temporary file: %s` -/
  | copyingFile (content : String)
  /-- the error of `newImage` -/
  | newImage
  /-- the error of `img.Size` -/
  | imageSize
  /-- Error `error serializing libvirt volume: %w` -/
  | serializing
  /-- Error `error creating libvirt volume for Ignition %s: %w` -/
  | creatingVolume (name : String)
  /-- Error `error while uploading ignition file %s: %w` -/
  | uploading (img : String)
  /-- Error `error retrieving volume key` -/
  | retrievingVolumeKey
  /-- Error `%s is not a valid key` -/
  | notValidKey (id : String)
  /-- Error `can't retrieve volume %s: %w` -/
  | cantRetrieveVolume (key : String)
  /-- Error `error retrieving volume name from key: %s` -/
  | retrievingVolumeName (key : String)
  /-- Error `error retrieving pool for volume: %s` -/
  | retrievingPool (volName : String)
  /-- Error `error retrieving pool name for volume: %s` -/
  | retrievingPoolName (volName : String)
  deriving DecidableEq, Repr

deriving instance DecidableEq for Except

/-- Whether a Go `(value, error)` pair carries a non-nil error. -/
def isErr {α : Type} : Except Err α → Bool
  | .error _ => true
  | .ok _ => false

/-! ## Identifier codec -/

/-- Go `strings.Index(s, sep)` for a one-byte separator: the position of the
first occurrence of `sep`, `none` standing for `-1`. -/
def Index (sep : Char) : List Char → Option Nat
  | [] => none
  | c :: cs => if c = sep then some 0 else (Index sep cs).map (· + 1)

/-- Go `strings.SplitN(s, sep, n)` for a one-byte separator and `n ≥ 0`
(`genSplit`); a one-byte separator never occurs inside the encoding of another
character, so cutting the characters is cutting the bytes: `n = 0` gives no element; otherwise the loop cuts at the first
separator while fewer than `n - 1` cuts were made and a separator is left, and
the remainder is the last element. -/
def SplitN (sep : Char) : List Char → Nat → List (List Char)
  | _, 0 => []
  | s, 1 => [s]
  | s, n + 2 =>
    match Index sep s with
    | none => [s]
    | some m => s.take m :: SplitN sep (s.drop (m + 1)) (n + 1)

/-- The method `buildTerraformKey`: `fmt.Sprintf("%s;%s", volumeKey, uuid.New())`,
with the freshly drawn UUID, already formatted, as the argument `uuid`. -/
def buildTerraformKey (volumeKey : String) (uuid : String) : String :=
  volumeKey ++ ";" ++ uuid

/-- The function `getIgnitionVolumeKeyFromTerraformID`. -/
def getIgnitionVolumeKeyFromTerraformID (id : String) : Except Err String :=
  let s := SplitN ';' id.data 2
  if s.length ≠ 2 then
    .error (.notValidKey id)
  else
    .ok (String.mk (s.headD []))

/-- The textual form of a value of `uuid.New()`: 36 characters, hyphens at
positions 8, 13, 18 and 23, lower-case hexadecimal digits elsewhere. -/
def isUUIDString (u : String) : Bool :=
  u.data.length == 36 &&
  (List.range 36).all fun i =>
    let c := u.data.getD i ' '
    if i == 8 || i == 13 || i == 18 || i == 23 then c == '-'
    else (('0' ≤ c && c ≤ '9') || ('a' ≤ c && c ≤ 'f'))

/-! ## Data model -/

/-- The struct `defIgnition`. -/
structure defIgnition where
  Name : String
  PoolName : String
  Content : String
  deriving DecidableEq, Repr

/-- The function `newIgnitionDef`: the zero value of the struct. -/
def newIgnitionDef : defIgnition :=
  { Name := "", PoolName := "", Content := "" }

/-- The fields of `libvirt.StoragePool` the code reads. -/
structure StoragePool where
  Name : String
  UUID : String
  deriving DecidableEq, Repr

/-- The fields of `libvirt.StorageVol` the code reads. -/
structure StorageVol where
  Pool : String
  Name : String
  Key : String
  deriving DecidableEq, Repr

/-- The volume descriptor built by `CreateAndUpload`: the fields of the value
of `newDefVolume()` that the function assigns (`Name`, `Capacity.Unit`,
`Capacity.Value`, `Target.Format.Type`), and `Rest` for everything else in it. -/
structure defVolume where
  Name : String
  CapacityUnit : String
  CapacityValue : Nat
  TargetFormatType : String
  Rest : String
  deriving DecidableEq, Repr

/-! ## Local filesystem -/

/-- The local filesystem: the bytes of the file at each path, `none` where
nothing exists. -/
abbrev FS := String → Option (List UInt8)

/-- The filesystem with the bytes at `path` replaced. -/
def FS.write (fs : FS) (path : String) (bytes : List UInt8) : FS :=
  fun q => if q = path then some bytes else fs q

/-- The filesystem with `path` unlinked. -/
def FS.unlink (fs : FS) (path : String) : FS :=
  fun q => if q = path then none else fs q

/-- Go `[]byte(s)`: the bytes of a string. -/
def bytesOf (s : String) : List UInt8 :=
  s.toUTF8.data.toList

/-- Go `os.Stat(path)`: `true` when the returned error is nil. -/
def Stat (fs : FS) (path : String) : Bool :=
  (fs path).isSome

/-! ## Environment and trace -/

/-- The outcomes of everything `CreateAndUpload` asks of the outside world. -/
structure Env where
  /-- Outcome of `client.libvirt == nil` -/
  connIsNil : Bool
  /-- Outcome of `virConn.StoragePoolLookupByName`; `none` is a non-nil error -/
  StoragePoolLookupByName : String → Option StoragePool
  /-- whether the call number `i` (from 0) of `virConn.StoragePoolRefresh(pool, 0)` succeeds -/
  StoragePoolRefresh : Nat → Bool
  /-- the number of attempts `waitForSuccess` makes before giving up -/
  refreshAttempts : Nat
  /-- the value of `newDefVolume()` -/
  newDefVolume : defVolume
  /-- Outcome of `os.CreateTemp("", pattern)`: the name it draws, `none` for an error -/
  CreateTemp : String → Option String
  /-- whether `json.Unmarshal([]byte(content), &js)` returns nil, `js` a `map[string]interface{}` -/
  Unmarshal : String → Bool
  /-- Outcome of `tempFile.WriteString`: `some n` is an error after `n` bytes were written -/
  WriteStringErr : Option Nat
  /-- whether `os.Open(ign.Content)` fails although the path exists -/
  OpenErr : Bool
  /-- Outcome of `io.Copy`: `some n` is an error after `n` bytes were copied -/
  CopyErr : Option Nat
  /-- whether `newImage(ignFile)` fails -/
  newImageErr : Bool
  /-- whether `img.Size()` fails -/
  SizeErr : Bool
  /-- whether `xml.Marshal(volumeDef)` fails -/
  MarshalErr : Bool
  /-- Outcome of `virConn.StorageVolCreateXML(pool, xml, 0)`; `none` is a non-nil error -/
  StorageVolCreateXML : StoragePool → defVolume → Option StorageVol
  /-- whether `img.Import(...)` fails -/
  ImportErr : Bool
  /-- whether `os.Remove(ignFile)` fails (the code logs it and goes on) -/
  RemoveErr : Bool
  /-- the string form of `uuid.New()` -/
  uuid : String

/-- The calls a run issues to the lock table and to the backend. -/
inductive Event where
  /-- Call `client.poolMutexKV.Lock(key)` -/
  | Lock (key : String)
  /-- Call `client.poolMutexKV.Unlock(key)` -/
  | Unlock (key : String)
  /-- Call `virConn.StoragePoolLookupByName(name)` -/
  | StoragePoolLookupByName (name : String)
  /-- Call `virConn.StoragePoolRefresh(pool, 0)` -/
  | StoragePoolRefresh (pool : StoragePool)
  /-- Call `virConn.StorageVolCreateXML(pool, string(volumeDefXML), 0)` -/
  | StorageVolCreateXML (pool : StoragePool) (volumeDef : defVolume)
  /-- Call `img.Import(newCopier(virConn, &volume, size), volumeDef)` of the image at `path` -/
  | Import (volume : StorageVol) (size : Nat) (path : String)
  deriving DecidableEq, Repr

/-- The events that are calls to the backend (all but the lock table's). -/
def Event.isBackend : Event → Bool
  | .Lock _ => false
  | .Unlock _ => false
  | _ => true

/-- The events that are calls to the lock table. -/
def Event.isLock : Event → Bool
  | .Lock _ => true
  | .Unlock _ => true
  | _ => false

/-- The backend calls of steps 2 to 6: pool refresh, volume creation, upload. -/
def Event.isProvisioning : Event → Bool
  | .StoragePoolRefresh _ => true
  | .StorageVolCreateXML _ _ => true
  | .Import _ _ _ => true
  | _ => false

/-- What a run leaves behind: the returned pair, the filesystem, the calls issued. -/
structure Run where
  result : Except Err String
  fs : FS
  trace : List Event

/-! ## Helpers that are not in the file -/

/-- Modelled from the spec: `waitForSuccess` is not in the file. "Refresh the
pool's metadata with bounded retry (a small fixed number of attempts ...);
exhausting retries surfaces `BackendError`". `f i` tells whether call number
`i` succeeds; the result is whether an attempt succeeded and how many calls
were made. -/
def waitForSuccess (f : Nat → Bool) : (attempts : Nat) → (made : Nat) → Bool × Nat
  | 0, made => (false, made)
  | n + 1, made => if f made then (true, made + 1) else waitForSuccess f n (made + 1)

/-- Modelled from the spec: `newImage` and `img.Size` are not in the file.
"VolumeSizer: reads the resolved temporary source's length", the exact byte
count of the file at `path`; `none` is an error. -/
def imgSize (env : Env) (fs : FS) (path : String) : Option Nat :=
  if env.SizeErr then none else (fs path).map List.length

/-- Modelled from the spec: the lock table `poolMutexKV` is not in the file.
"a keyed mutual-exclusion registry, one lock per storage-pool name": the set of
keys whose lock is held. -/
abbrev LockTable := String → Bool

/-- Modelled from the spec: the effect of one call on the lock table. `Lock` of
a held key blocks (`none`: the run does not go on), `Unlock` of a free key is a
fault (`none`); backend calls leave the table alone. -/
def LockTable.step (t : LockTable) : Event → Option LockTable
  | .Lock k => if t k then none else some (fun q => if q = k then true else t q)
  | .Unlock k => if t k then some (fun q => if q = k then false else t q) else none
  | _ => some t

/-- The lock table after the calls of a trace, in order. -/
def LockTable.run (t : LockTable) : List Event → Option LockTable
  | [] => some t
  | e :: es => (t.step e).bind (fun t1 => LockTable.run t1 es)

/-- Whether position `i` of a trace lies inside the scope of the lock keyed
`key`: a `Lock key` was issued before it and not released since, and the
`Unlock key` comes after it. -/
def heldAt (key : String) (trace : List Event) (i : Nat) : Bool :=
  (trace.take i).count (Event.Lock key) == (trace.take i).count (Event.Unlock key) + 1 &&
  (trace.drop (i + 1)).contains (Event.Unlock key)

/-! ## Content resolver -/

/-- Go `os.CreateTemp("", pattern)`: the file is opened with `O_EXCL`, so a name
that exists is never the one created. -/
def CreateTemp (env : Env) (pattern : String) (fs : FS) : Option String :=
  match env.CreateTemp pattern with
  | none => none
  | some name => if (fs name).isSome then none else some name

/-- The classification block of `createFile` (`file = true; if _, err :=
os.Stat(ign.Content); err != nil { ... }`): the value of `file`, or the early
return. -/
def classify (env : Env) (ign : defIgnition) (fs : FS) : Except Err Bool :=
  if !Stat fs ign.Content then
    if !env.Unmarshal ign.Content then
      .error (.invalidContent ign.Content)
    else
      .ok false
  else
    .ok true

/-- The method `createFile`: the returned pair and the filesystem it leaves. -/
def createFile (env : Env) (ign : defIgnition) (fs : FS) : Except Err String × FS :=
  match CreateTemp env ign.Name fs with
  | none => (.error .creatingTmpFile, fs)
  | some tempFile =>
    let fs1 := fs.write tempFile []
    match classify env ign fs1 with
    | .error e => (.error e, fs1)
    | .ok file =>
      if !file then
        match env.WriteStringErr with
        | some n => (.error .cannotWrite, fs1.write tempFile ((bytesOf ign.Content).take n))
        | none => (.ok tempFile, fs1.write tempFile (bytesOf ign.Content))
      else if file then
        if env.OpenErr then
          (.error (.openingFile ign.Content), fs1)
        else
          let src := (fs1 ign.Content).getD []
          match env.CopyErr with
          | some n => (.error (.copyingFile ign.Content), fs1.write tempFile (src.take n))
          | none => (.ok tempFile, fs1.write tempFile src)
      else
        (.ok tempFile, fs1)

/-! ## Provisioner -/

/-- The deferred `os.Remove(ignFile)`: a failure is logged, nothing else. -/
def Remove (env : Env) (fs : FS) (path : String) : FS :=
  if env.RemoveErr then fs else fs.unlink path

/-- The part of `CreateAndUpload` after the removal of `ignFile` is deferred
(from `newImage(ignFile)` on): the returned pair and the backend calls. It does
not touch the local filesystem. -/
def uploadIgnFile (env : Env) (ign : defIgnition) (pool : StoragePool)
    (volumeDef : defVolume) (ignFile : String) (fs : FS) : Except Err String × List Event :=
  if env.newImageErr then (.error .newImage, []) else
  match imgSize env fs ignFile with
  | none => (.error .imageSize, [])
  | some size =>
    let volumeDef := { volumeDef with
      CapacityUnit := "B", CapacityValue := size, TargetFormatType := "raw" }
    if env.MarshalErr then (.error .serializing, []) else
    match env.StorageVolCreateXML pool volumeDef with
    | none => (.error (.creatingVolume ign.Name), [.StorageVolCreateXML pool volumeDef])
    | some volume =>
      let calls := [Event.StorageVolCreateXML pool volumeDef,
                    Event.Import volume volumeDef.CapacityValue ignFile]
      if env.ImportErr then (.error (.uploading ignFile), calls)
      else if volume.Key = "" then (.error .retrievingVolumeKey, calls)
      else (.ok (buildTerraformKey volume.Key env.uuid), calls)

/-- The part of `CreateAndUpload` between `Lock` and the deferred `Unlock`. -/
def provision (env : Env) (ign : defIgnition) (pool : StoragePool) (fs : FS) : Run :=
  let w := waitForSuccess env.StoragePoolRefresh env.refreshAttempts 0
  let refreshes := List.replicate w.2 (Event.StoragePoolRefresh pool)
  if !w.1 then ⟨.error .refreshingPool, fs, refreshes⟩ else
  let volumeDef := { env.newDefVolume with Name := ign.Name }
  match createFile env ign fs with
  | (.error e, fs1) => ⟨.error e, fs1, refreshes⟩
  | (.ok ignFile, fs1) =>
    let r := uploadIgnFile env ign pool volumeDef ignFile fs1
    ⟨r.1, Remove env fs1 ignFile, refreshes ++ r.2⟩

/-- The method `CreateAndUpload`. Its Go docstring speaks of an ISO file made
from a CloudInit instance; the body, embedded here, uploads the resolved
ignition content as it is into a volume of format `raw`. -/
def CreateAndUpload (env : Env) (ign : defIgnition) (fs : FS) : Run :=
  if env.connIsNil then ⟨.error .libVirtConIsNil, fs, []⟩ else
  match env.StoragePoolLookupByName ign.PoolName with
  | none =>
    ⟨.error (.cantFindPool ign.PoolName), fs, [.StoragePoolLookupByName ign.PoolName]⟩
  | some pool =>
    let r := provision env ign pool fs
    ⟨r.result, r.fs,
      Event.StoragePoolLookupByName ign.PoolName :: Event.Lock ign.PoolName ::
        (r.trace ++ [Event.Unlock ign.PoolName])⟩

/-! ## Reverse resolution -/

/-- The two lookups `newIgnitionDefFromRemoteVol` asks of the connection;
`none` is a non-nil error. -/
structure Libvirt where
  StorageVolLookupByKey : String → Option StorageVol
  StoragePoolLookupByVolume : StorageVol → Option StoragePool

/-- The function `newIgnitionDefFromRemoteVol`: the returned pair, `none` for a
nil error. -/
def newIgnitionDefFromRemoteVol (virConn : Libvirt) (id : String) : defIgnition × Option Err :=
  let ign : defIgnition := { Name := "", PoolName := "", Content := "" }
  match getIgnitionVolumeKeyFromTerraformID id with
  | .error e => (ign, some e)
  | .ok key =>
    match virConn.StorageVolLookupByKey key with
    | none => (ign, some (.cantRetrieveVolume key))
    | some volume =>
      let ign := { ign with Name := volume.Name }
      if ign.Name = "" then (ign, some (.retrievingVolumeName key)) else
      match virConn.StoragePoolLookupByVolume volume with
      | none => (ign, some (.retrievingPool volume.Name))
      | some volPool =>
        let ign := { ign with PoolName := volPool.Name }
        if ign.PoolName = "" then (ign, some (.retrievingPoolName volume.Name))
        else (ign, none)

/-! ## Sample inputs -/

/-- A UUID string. -/
def sampleUUID : String := "550e8400-e29b-41d4-a716-446655440000"

/-- The pool of the sample backend. -/
def samplePool : StoragePool := { Name := "default", UUID := "p-1" }

/-- A filesystem holding one 1024-byte file, `/tmp/boot.ign`. -/
def sampleFS : FS :=
  fun p => if p = "/tmp/boot.ign" then some (List.replicate 1024 0) else none

/-- The white space of JSON (`isSpace` of `encoding/json`). -/
def isSpace (c : Char) : Bool :=
  c == ' ' || c == '\t' || c == '\r' || c == '\n'

/-- A necessary condition for a text to be a JSON object: after leading white
space it begins with the opening brace. A text that fails it does not parse as
a JSON object. -/
def startsJSONObject (s : String) : Bool :=
  (s.data.dropWhile isSpace).head? == some '\x7b'

/-- Whether a text is the JSON literal `null`, white space around it apart. -/
def isJSONNull (s : String) : Bool :=
  ((s.data.dropWhile isSpace).reverse.dropWhile isSpace).reverse == "null".data

/-- The answers of `json.Unmarshal([]byte(content), &js)`, `js` a
`map[string]interface{}`, used by the sample environment. The literal `null`
is no error: the JSON null value sets a map to nil and reports nothing. A text
that begins neither an object nor is `null` is an error: it is no JSON at all,
or its value is an array, a string, a number or a boolean, which a map cannot
take. For a text that begins with the opening brace the answer `true` is that
of the library when the object is well formed, as the one of scenario 1 is;
the samples use no other. -/
def sampleUnmarshal (content : String) : Bool :=
  isJSONNull content || startsJSONObject content

/-- An environment in which every step succeeds: the pool `default` exists, the
first refresh succeeds, the temporary file is `/tmp/ign123`, `json.Unmarshal`
answers as `sampleUnmarshal`, and the backend names the volume after the
descriptor. -/
def sampleEnv : Env where
  connIsNil := false
  StoragePoolLookupByName := fun n => if n = "default" then some samplePool else none
  StoragePoolRefresh := fun _ => true
  refreshAttempts := 3
  newDefVolume :=
    { Name := "", CapacityUnit := "bytes", CapacityValue := 1, TargetFormatType := "qcow2",
      Rest := "mode=644" }
  CreateTemp := fun _ => some "/tmp/ign123"
  Unmarshal := sampleUnmarshal
  WriteStringErr := none
  OpenErr := false
  CopyErr := none
  newImageErr := false
  SizeErr := false
  MarshalErr := false
  StorageVolCreateXML := fun p d =>
    some { Pool := p.Name, Name := d.Name, Key := "/var/lib/libvirt/images/" ++ d.Name }
  ImportErr := false
  RemoveErr := false
  uuid := sampleUUID

/-- A backend with one volume, keyed `/var/lib/libvirt/images/ign`, in the pool
`default`. -/
def sampleConn : Libvirt where
  StorageVolLookupByKey := fun k =>
    if k = "/var/lib/libvirt/images/ign" then
      some { Pool := "default", Name := "ign", Key := "/var/lib/libvirt/images/ign" }
    else none
  StoragePoolLookupByVolume := fun v => if v.Pool = "default" then some samplePool else none

/-- The request of scenario 1: inline content. -/
def inlineRequest : defIgnition :=
  { Name := "ign", PoolName := "default", Content := "\x7b\"ignition\":\x7b\"version\":\"3.2.0\"\x7d\x7d" }

/-- The request of scenario 2: the content is the path of an existing file. -/
def fileRequest : defIgnition :=
  { Name := "ign", PoolName := "default", Content := "/tmp/boot.ign" }

/-- The request of scenario 3: neither a path nor JSON. -/
def invalidRequest : defIgnition :=
  { Name := "ign", PoolName := "default", Content := "not a path and not json" }

/-- A request whose content is the JSON literal `null`: not a path of the
sample filesystem and not a JSON object. -/
def nullRequest : defIgnition :=
  { Name := "ign", PoolName := "default", Content := "null" }

end Ignition

namespace Ignition

/-! ## The identifier codec: lemmas -/

theorem Index_eq_none {sep : Char} {s : List Char} (h : sep ∉ s) : Index sep s = none := by
  induction s with
  | nil => rfl
  | cons c cs ih =>
    have hc : ¬ c = sep := fun e => h (by simp [e])
    have hcs : sep ∉ cs := fun m => h (List.mem_cons_of_mem _ m)
    simp [Index, hc, ih hcs]

theorem Index_of_mem {sep : Char} {s : List Char} (h : sep ∈ s) :
    ∃ m, Index sep s = some m ∧ s.take m = s.takeWhile (fun c => c != sep) ∧
      s.drop (m + 1) = (s.dropWhile (fun c => c != sep)).tail := by
  induction s with
  | nil => simp at h
  | cons c cs ih =>
    by_cases hc : c = sep
    · exact ⟨0, by simp [Index, hc], by simp [List.takeWhile_cons, hc],
        by simp [List.dropWhile_cons, hc]⟩
    · have hcs : sep ∈ cs := by
        rcases List.mem_cons.mp h with e | m
        · exact absurd e.symm hc
        · exact m
      obtain ⟨m, hm, ht, hd⟩ := ih hcs
      refine ⟨m + 1, by simp [Index, hc, hm], ?_, ?_⟩
      · simp [List.takeWhile_cons, hc, ht]
      · simp [List.dropWhile_cons, hc, hd]

/-- What `strings.SplitN(s, sep, 2)` returns: the whole of `s` when it has no
separator, else the part before the first separator and the part after it. -/
theorem SplitN_two (sep : Char) (s : List Char) :
    SplitN sep s 2 =
      if sep ∈ s then
        [s.takeWhile (fun c => c != sep), (s.dropWhile (fun c => c != sep)).tail]
      else [s] := by
  by_cases h : sep ∈ s
  · obtain ⟨m, hm, ht, hd⟩ := Index_of_mem h
    simp [SplitN, hm, ht, hd, h]
  · simp [SplitN, Index_eq_none h, h]

theorem decode_eq (id : String) :
    getIgnitionVolumeKeyFromTerraformID id =
      if ';' ∈ id.data then .ok (String.mk (id.data.takeWhile (fun c => c != ';')))
      else .error (.notValidKey id) := by
  unfold getIgnitionVolumeKeyFromTerraformID
  by_cases h : ';' ∈ id.data <;> simp [SplitN_two, h]

theorem takeWhile_append_sep (sep : Char) (k t : List Char) (h : sep ∉ k) :
    (k ++ sep :: t).takeWhile (fun c => c != sep) = k := by
  induction k with
  | nil => simp [List.takeWhile_cons]
  | cons c cs ih =>
    have hc : ¬ c = sep := fun e => h (by simp [e])
    have hcs : sep ∉ cs := fun m => h (List.mem_cons_of_mem _ m)
    simp [List.takeWhile_cons, hc, ih hcs]

theorem takeWhile_append_of_mem (sep : Char) (k t : List Char) (h : sep ∈ k) :
    (k ++ t).takeWhile (fun c => c != sep) = k.takeWhile (fun c => c != sep) := by
  induction k with
  | nil => simp at h
  | cons c cs ih =>
    by_cases hc : c = sep
    · simp [List.takeWhile_cons, hc]
    · have hcs : sep ∈ cs := by
        rcases List.mem_cons.mp h with e | m
        · exact absurd e.symm hc
        · exact m
      simp [List.takeWhile_cons, hc, ih hcs]

theorem buildTerraformKey_data (k u : String) :
    (buildTerraformKey k u).data = k.data ++ ';' :: u.data := by
  simp [buildTerraformKey, String.data_append]

/-! ## The identifier codec: claims -/

/-- C2. Decoding any `id` returns the error when `id` contains no `;` and
otherwise exactly the part of `id` before its first `;`; what follows that `;`
is not looked at, so replacing the token by any other (or by nothing) gives
the same result. The two scenarios of the specification are instances. -/
theorem decode_input_output :
    (∀ id : String, getIgnitionVolumeKeyFromTerraformID id =
      if ';' ∈ id.data then .ok (String.mk (id.data.takeWhile (fun c => c != ';')))
      else .error (.notValidKey id)) ∧
    (∀ k t t2 : String, getIgnitionVolumeKeyFromTerraformID (k ++ ";" ++ t) =
      getIgnitionVolumeKeyFromTerraformID (k ++ ";" ++ t2)) ∧
    getIgnitionVolumeKeyFromTerraformID "abckey;550e8400-e29b-41d4-a716-446655440000"
      = .ok "abckey" ∧
    getIgnitionVolumeKeyFromTerraformID "novalidseparator"
      = .error (.notValidKey "novalidseparator") := by
  refine ⟨decode_eq, ?_, by decide, by decide⟩
  intro k t t2
  have hd : ∀ x : String, (k ++ ";" ++ x).data = (k.data ++ [';']) ++ x.data := by
    intro x; simp [String.data_append]
  have hm : ';' ∈ k.data ++ [';'] := by simp
  rw [decode_eq, decode_eq, hd t, hd t2]
  simp only [List.mem_append, hm, true_or, if_true]
  rw [takeWhile_append_of_mem _ _ _ hm, takeWhile_append_of_mem _ _ _ hm]

/-- C1, as stated, fails: the key `a;b` is non-empty and the token is a UUID,
yet the identifier built from them decodes to `a`. -/
theorem roundtrip_fails_on_key_with_separator :
    "a;b" ≠ "" ∧ isUUIDString sampleUUID = true ∧
    getIgnitionVolumeKeyFromTerraformID (buildTerraformKey "a;b" sampleUUID) = .ok "a" ∧
    getIgnitionVolumeKeyFromTerraformID (buildTerraformKey "a;b" sampleUUID) ≠ .ok "a;b" := by
  decide

/-- C1, amended. For every volume key `k` that contains no `;` and every
token `u`, decoding the identifier built from `k` and `u` returns `k`. -/
theorem decode_buildTerraformKey (k u : String) (hk : ';' ∉ k.data) :
    getIgnitionVolumeKeyFromTerraformID (buildTerraformKey k u) = .ok k := by
  rw [decode_eq, buildTerraformKey_data, takeWhile_append_sep _ _ _ hk]
  simp

theorem decode_buildTerraformKey_witness :
    ';' ∉ ("/var/lib/libvirt/images/ign" : String).data ∧
    getIgnitionVolumeKeyFromTerraformID
      (buildTerraformKey "/var/lib/libvirt/images/ign" sampleUUID)
      = .ok "/var/lib/libvirt/images/ign" :=
  ⟨by decide, decode_buildTerraformKey "/var/lib/libvirt/images/ign" sampleUUID (by decide)⟩

/-- C3, as stated, fails: an identifier with an empty volume key and one with
an empty token are both decoded without error, the first to the empty key. -/
theorem decode_accepts_empty_parts :
    getIgnitionVolumeKeyFromTerraformID (";" ++ sampleUUID) = .ok "" ∧
    getIgnitionVolumeKeyFromTerraformID "key;" = .ok "key" ∧
    isErr (getIgnitionVolumeKeyFromTerraformID (";" ++ sampleUUID)) = false ∧
    isErr (getIgnitionVolumeKeyFromTerraformID "key;") = false := by
  decide

/-- C3, amended. Decoding returns an error exactly when the split on the
first `;` does not give two parts, that is when `id` contains no `;`; the parts
may be empty, and a successful decode returns the empty key exactly when `id`
begins with `;`. -/
theorem decode_error_iff (id : String) :
    (isErr (getIgnitionVolumeKeyFromTerraformID id) = true ↔
      (SplitN ';' id.data 2).length ≠ 2) ∧
    ((SplitN ';' id.data 2).length ≠ 2 ↔ ';' ∉ id.data) ∧
    (∀ k, getIgnitionVolumeKeyFromTerraformID id = .ok k →
      (k = "" ↔ id.data.head? = some ';')) := by
  have hlen : (SplitN ';' id.data 2).length ≠ 2 ↔ ';' ∉ id.data := by
    rw [SplitN_two]; by_cases h : ';' ∈ id.data <;> simp [h]
  refine ⟨?_, hlen, ?_⟩
  · rw [hlen, decode_eq]
    by_cases h : ';' ∈ id.data <;> simp [h, isErr]
  · intro k hk
    rw [decode_eq] at hk
    by_cases h : ';' ∈ id.data
    · simp only [h, if_true, Except.ok.injEq] at hk
      subst hk
      cases hdat : id.data with
      | nil => rw [hdat] at h; simp at h
      | cons c cs =>
        by_cases hc : c = ';'
        · simp [List.takeWhile_cons, hc]
        · have : (String.mk (c :: List.takeWhile (fun c => c != ';') cs)) ≠ "" := by
            intro e
            have := congrArg String.data e
            simp at this
          simp [List.takeWhile_cons, hc, this]
    · simp [h] at hk

theorem decode_error_iff_witness :
    (isErr (getIgnitionVolumeKeyFromTerraformID "key;") = true ↔
      (SplitN ';' ("key;" : String).data 2).length ≠ 2) ∧
    ((SplitN ';' ("key;" : String).data 2).length ≠ 2 ↔ ';' ∉ ("key;" : String).data) ∧
    (∀ k, getIgnitionVolumeKeyFromTerraformID "key;" = .ok k →
      (k = "" ↔ ("key;" : String).data.head? = some ';')) :=
  decode_error_iff "key;"

/-! ## Reverse resolution -/

/-- C9. `newIgnitionDefFromRemoteVol` returns a nil error exactly when `id`
decodes to a key, the volume lookup by that key succeeds with a non-empty name,
and the lookup of the pool of that volume succeeds with a non-empty name; the
result then carries that volume name and that pool name, both non-empty; in
every other case the error is non-nil; and two identifiers with the same part
before their first `;` give the same result. -/
theorem newIgnitionDefFromRemoteVol_spec (virConn : Libvirt) (id : String) :
    ((newIgnitionDefFromRemoteVol virConn id).2 = none ↔
      ∃ key volume volPool,
        getIgnitionVolumeKeyFromTerraformID id = .ok key ∧
        virConn.StorageVolLookupByKey key = some volume ∧ volume.Name ≠ "" ∧
        virConn.StoragePoolLookupByVolume volume = some volPool ∧ volPool.Name ≠ "") ∧
    (∀ key volume volPool,
        getIgnitionVolumeKeyFromTerraformID id = .ok key →
        virConn.StorageVolLookupByKey key = some volume → volume.Name ≠ "" →
        virConn.StoragePoolLookupByVolume volume = some volPool → volPool.Name ≠ "" →
        newIgnitionDefFromRemoteVol virConn id =
          ({ Name := volume.Name, PoolName := volPool.Name, Content := "" }, none)) ∧
    ((newIgnitionDefFromRemoteVol virConn id).2 = none →
        (newIgnitionDefFromRemoteVol virConn id).1.Name ≠ "" ∧
        (newIgnitionDefFromRemoteVol virConn id).1.PoolName ≠ "") ∧
    (∀ id2 : String, ';' ∈ id.data → ';' ∈ id2.data →
        id.data.takeWhile (fun c => c != ';') = id2.data.takeWhile (fun c => c != ';') →
        newIgnitionDefFromRemoteVol virConn id = newIgnitionDefFromRemoteVol virConn id2) := by
  have hsucc : ∀ key volume volPool,
      getIgnitionVolumeKeyFromTerraformID id = .ok key →
      virConn.StorageVolLookupByKey key = some volume → volume.Name ≠ "" →
      virConn.StoragePoolLookupByVolume volume = some volPool → volPool.Name ≠ "" →
      newIgnitionDefFromRemoteVol virConn id =
        ({ Name := volume.Name, PoolName := volPool.Name, Content := "" }, none) := by
    intro key volume volPool h1 h2 h3 h4 h5
    simp [newIgnitionDefFromRemoteVol, h1, h2, h3, h4, h5]
  have hconv : (newIgnitionDefFromRemoteVol virConn id).2 = none →
      ∃ key volume volPool,
        getIgnitionVolumeKeyFromTerraformID id = .ok key ∧
        virConn.StorageVolLookupByKey key = some volume ∧ volume.Name ≠ "" ∧
        virConn.StoragePoolLookupByVolume volume = some volPool ∧ volPool.Name ≠ "" := by
    intro h
    unfold newIgnitionDefFromRemoteVol at h
    cases h1 : getIgnitionVolumeKeyFromTerraformID id with
    | error e => simp [h1] at h
    | ok key =>
      cases h2 : virConn.StorageVolLookupByKey key with
      | none => simp [h1, h2] at h
      | some volume =>
        by_cases h3 : volume.Name = ""
        · simp [h1, h2, h3] at h
        · cases h4 : virConn.StoragePoolLookupByVolume volume with
          | none => simp [h1, h2, h3, h4] at h
          | some volPool =>
            by_cases h5 : volPool.Name = ""
            · simp [h1, h2, h3, h4, h5] at h
            · exact ⟨key, volume, volPool, rfl, h2, h3, h4, h5⟩
  refine ⟨⟨hconv, ?_⟩, hsucc, ?_, ?_⟩
  · rintro ⟨key, volume, volPool, h1, h2, h3, h4, h5⟩
    rw [hsucc key volume volPool h1 h2 h3 h4 h5]
  · intro h
    obtain ⟨key, volume, volPool, h1, h2, h3, h4, h5⟩ := hconv h
    rw [hsucc key volume volPool h1 h2 h3 h4 h5]
    exact ⟨h3, h5⟩
  · intro id2 hm hm2 heq
    have e : getIgnitionVolumeKeyFromTerraformID id = getIgnitionVolumeKeyFromTerraformID id2 := by
      rw [decode_eq, decode_eq, if_pos hm, if_pos hm2, heq]
    unfold newIgnitionDefFromRemoteVol
    rw [e]

theorem newIgnitionDefFromRemoteVol_spec_witness :
    newIgnitionDefFromRemoteVol sampleConn (buildTerraformKey "/var/lib/libvirt/images/ign" sampleUUID)
      = ({ Name := "ign", PoolName := "default", Content := "" }, none) ∧
    newIgnitionDefFromRemoteVol sampleConn (buildTerraformKey "/var/lib/libvirt/images/ign" sampleUUID)
      = newIgnitionDefFromRemoteVol sampleConn "/var/lib/libvirt/images/ign;" :=
  ⟨(newIgnitionDefFromRemoteVol_spec sampleConn
      (buildTerraformKey "/var/lib/libvirt/images/ign" sampleUUID)).2.1
      "/var/lib/libvirt/images/ign"
      { Pool := "default", Name := "ign", Key := "/var/lib/libvirt/images/ign" } samplePool
      (by decide) (by decide) (by decide) (by decide) (by decide),
   (newIgnitionDefFromRemoteVol_spec sampleConn
      (buildTerraformKey "/var/lib/libvirt/images/ign" sampleUUID)).2.2.2
      "/var/lib/libvirt/images/ign;" (by decide) (by decide) (by decide)⟩

/-! ## Content resolver -/

theorem CreateTemp_fresh {env : Env} {pattern : String} {fs : FS} {tempFile : String}
    (h : CreateTemp env pattern fs = some tempFile) :
    env.CreateTemp pattern = some tempFile ∧ fs tempFile = none := by
  unfold CreateTemp at h
  cases hc : env.CreateTemp pattern with
  | none => simp [hc] at h
  | some name =>
    cases hf : fs name with
    | none =>
      simp [hc, hf] at h
      subst h
      exact ⟨rfl, hf⟩
    | some b => simp [hc, hf] at h

theorem write_same (fs : FS) (path : String) (b : List UInt8) : (fs.write path b) path = some b := by
  simp [FS.write]

theorem bytesOf_length (s : String) : (bytesOf s).length = s.utf8ByteSize := by
  unfold bytesOf
  rw [Array.length_toList, ← String.size_toUTF8]
  rfl

/-- What a successful `createFile` leaves: the file it returns is the one
`CreateTemp` made, and it holds the bytes of `Content` when the stat failed,
the bytes of the file at `Content` when the stat succeeded. -/
theorem createFile_ok {env : Env} {ign : defIgnition} {fs fs2 : FS} {ignFile : String}
    (h : createFile env ign fs = (.ok ignFile, fs2)) :
    CreateTemp env ign.Name fs = some ignFile ∧
    ((Stat (fs.write ignFile []) ign.Content = false ∧ env.Unmarshal ign.Content = true ∧
        fs2 ignFile = some (bytesOf ign.Content)) ∨
     (∃ b, (fs.write ignFile []) ign.Content = some b ∧ fs2 ignFile = some b)) := by
  unfold createFile at h
  cases hc : CreateTemp env ign.Name fs with
  | none => simp [hc] at h
  | some tempFile =>
    simp only [hc] at h
    by_cases hs : Stat (fs.write tempFile []) ign.Content = true
    · have hcl : classify env ign (fs.write tempFile []) = .ok true := by
        simp [classify, hs]
      simp only [hcl] at h
      cases ho : env.OpenErr with
      | true => simp [ho] at h
      | false =>
        cases hcp : env.CopyErr with
        | some n => simp [ho, hcp] at h
        | none =>
          simp [ho, hcp] at h
          obtain ⟨h1, h2⟩ := h
          subst h1
          refine ⟨rfl, Or.inr ?_⟩
          unfold Stat at hs
          obtain ⟨b, hb⟩ := Option.isSome_iff_exists.mp hs
          exact ⟨b, hb, by rw [← h2, hb]; simp [FS.write]⟩
    · have hs2 : Stat (fs.write tempFile []) ign.Content = false := by simpa using hs
      cases hu : env.Unmarshal ign.Content with
      | false => simp [classify, hs2, hu] at h
      | true =>
        have hcl : classify env ign (fs.write tempFile []) = .ok false := by
          simp [classify, hs2, hu]
        simp only [hcl] at h
        cases hw : env.WriteStringErr with
        | some n => simp [hw] at h
        | none =>
          simp [hw] at h
          obtain ⟨h1, h2⟩ := h
          subst h1
          exact ⟨rfl, Or.inl ⟨hs2, rfl, by rw [← h2]; simp [FS.write]⟩⟩

/-- File precedence in `createFile`. Once the temporary file exists: if the stat of `Content` succeeds,
`createFile` takes the file branch (`file = true`) whatever `json.Unmarshal`
would say, and when open and copy succeed the temporary file holds the bytes of
the file at `Content`; `file = false` (the inline branch) results exactly when
the stat fails and `Content` parses, and then, the write succeeding, the
temporary file holds the bytes of `Content`. -/
theorem createFile_file_precedence (env : Env) (ign : defIgnition) (fs : FS) (tempFile : String)
    (h : CreateTemp env ign.Name fs = some tempFile) :
    (∀ b, (fs.write tempFile []) ign.Content = some b →
        classify env ign (fs.write tempFile []) = .ok true ∧
        (env.OpenErr = false → env.CopyErr = none →
          (createFile env ign fs).1 = .ok tempFile ∧
          (createFile env ign fs).2 tempFile = some b)) ∧
    (∀ b, fs ign.Content = some b → (fs.write tempFile []) ign.Content = some b) ∧
    (classify env ign (fs.write tempFile []) = .ok false ↔
        (Stat (fs.write tempFile []) ign.Content = false ∧ env.Unmarshal ign.Content = true)) ∧
    (classify env ign (fs.write tempFile []) = .ok false → env.WriteStringErr = none →
        (createFile env ign fs).1 = .ok tempFile ∧
        (createFile env ign fs).2 tempFile = some (bytesOf ign.Content)) := by
  refine ⟨?_, ?_, ?_, ?_⟩
  · intro b hb
    have hs : Stat (fs.write tempFile []) ign.Content = true := by simp [Stat, hb]
    have hcl : classify env ign (fs.write tempFile []) = .ok true := by simp [classify, hs]
    refine ⟨hcl, ?_⟩
    intro ho hcp
    simp [createFile, h, hcl, ho, hcp, hb, write_same]
  · intro b hb
    have hne : ign.Content ≠ tempFile := by
      intro e
      rw [e, (CreateTemp_fresh h).2] at hb
      simp at hb
    simp [FS.write, hne, hb]
  · cases hs : Stat (fs.write tempFile []) ign.Content <;>
      cases hu : env.Unmarshal ign.Content <;> simp [classify, hs, hu]
  · intro hcl hw
    simp [createFile, h, hcl, hw, FS.write]

theorem createFile_file_precedence_witness :
    CreateTemp sampleEnv fileRequest.Name sampleFS = some "/tmp/ign123" ∧
    (createFile sampleEnv fileRequest sampleFS).1 = .ok "/tmp/ign123" ∧
    (createFile sampleEnv fileRequest sampleFS).2 "/tmp/ign123" = some (List.replicate 1024 0) :=
  ⟨by decide,
   ((createFile_file_precedence sampleEnv fileRequest sampleFS "/tmp/ign123" (by decide)).1
      (List.replicate 1024 0) rfl).2 (by decide) (by decide)⟩

/-- C7: the run on the content `null`. Nothing is at the path `null`, so the
stat fails; `null` is not a JSON object, yet `json.Unmarshal` into the map
reports no error on it; `createFile` takes the inline branch (`file = false`)
and writes the four bytes of `null` to the temporary file, and
`CreateAndUpload` creates a volume of capacity 4 from it and returns an
identifier instead of the invalid-content error. -/
theorem null_content_taken_inline :
    sampleFS nullRequest.Content = none ∧
    startsJSONObject nullRequest.Content = false ∧
    sampleEnv.Unmarshal nullRequest.Content = true ∧
    Stat (sampleFS.write "/tmp/ign123" []) nullRequest.Content = false ∧
    classify sampleEnv nullRequest (sampleFS.write "/tmp/ign123" []) = .ok false ∧
    (createFile sampleEnv nullRequest sampleFS).1 = .ok "/tmp/ign123" ∧
    (createFile sampleEnv nullRequest sampleFS).2 "/tmp/ign123" = some (bytesOf "null") ∧
    (bytesOf "null").length = 4 ∧
    (CreateAndUpload sampleEnv nullRequest sampleFS).result =
      .ok (buildTerraformKey "/var/lib/libvirt/images/ign" sampleUUID) ∧
    Event.StorageVolCreateXML samplePool
        { Name := "ign", CapacityUnit := "B", CapacityValue := 4, TargetFormatType := "raw",
          Rest := "mode=644" } ∈ (CreateAndUpload sampleEnv nullRequest sampleFS).trace := by
  decide

/-! ## Provisioner: the shape of a run -/

/-- The backend calls of `uploadIgnFile`: none, or the volume creation alone,
or the volume creation and the upload; the descriptor sent is the one passed in
with unit `B`, format `raw` and the size `imgSize` gave. -/
theorem uploadIgnFile_calls (env : Env) (ign : defIgnition) (pool : StoragePool)
    (volumeDef : defVolume) (ignFile : String) (fs : FS) :
    (uploadIgnFile env ign pool volumeDef ignFile fs).2 = [] ∨
    ∃ size, imgSize env fs ignFile = some size ∧
      ((uploadIgnFile env ign pool volumeDef ignFile fs).2 =
          [Event.StorageVolCreateXML pool { volumeDef with
            CapacityUnit := "B", CapacityValue := size, TargetFormatType := "raw" }] ∨
       ∃ volume, (uploadIgnFile env ign pool volumeDef ignFile fs).2 =
          [Event.StorageVolCreateXML pool { volumeDef with
            CapacityUnit := "B", CapacityValue := size, TargetFormatType := "raw" },
           Event.Import volume size ignFile]) := by
  unfold uploadIgnFile
  cases h1 : env.newImageErr with
  | true => simp
  | false =>
    cases h2 : imgSize env fs ignFile with
    | none => simp
    | some size =>
      cases h3 : env.MarshalErr with
      | true => simp
      | false =>
        right
        refine ⟨size, rfl, ?_⟩
        simp only [Bool.false_eq_true, if_false]
        cases h4 : env.StorageVolCreateXML pool { volumeDef with
            CapacityUnit := "B", CapacityValue := size, TargetFormatType := "raw" } with
        | none => left; rfl
        | some volume =>
          right
          refine ⟨volume, ?_⟩
          cases h5 : env.ImportErr with
          | true => simp
          | false =>
            by_cases h6 : volume.Key = "" <;> simp [h6]

theorem uploadIgnFile_isProvisioning (env : Env) (ign : defIgnition) (pool : StoragePool)
    (volumeDef : defVolume) (ignFile : String) (fs : FS) :
    ∀ e ∈ (uploadIgnFile env ign pool volumeDef ignFile fs).2, e.isProvisioning = true := by
  intro e he
  rcases uploadIgnFile_calls env ign pool volumeDef ignFile fs with h | ⟨size, -, h | ⟨v, h⟩⟩
  · rw [h] at he; simp at he
  · rw [h] at he; simp at he; subst he; rfl
  · rw [h] at he; simp at he; rcases he with he | he <;> subst he <;> rfl

/-- The calls of `provision`: the refresh attempts, followed, when `createFile`
succeeded, by the calls of `uploadIgnFile` on the file it made. -/
theorem provision_trace (env : Env) (ign : defIgnition) (pool : StoragePool) (fs : FS) :
    ∃ n, (provision env ign pool fs).trace = List.replicate n (Event.StoragePoolRefresh pool) ∨
      ∃ ignFile fs1, createFile env ign fs = (.ok ignFile, fs1) ∧
        (waitForSuccess env.StoragePoolRefresh env.refreshAttempts 0).1 = true ∧
        (provision env ign pool fs).trace =
          List.replicate n (Event.StoragePoolRefresh pool) ++
            (uploadIgnFile env ign pool { env.newDefVolume with Name := ign.Name }
              ignFile fs1).2 := by
  refine ⟨(waitForSuccess env.StoragePoolRefresh env.refreshAttempts 0).2, ?_⟩
  unfold provision
  cases hw : (waitForSuccess env.StoragePoolRefresh env.refreshAttempts 0).1 with
  | false => left; simp [hw]
  | true =>
    cases hcf : createFile env ign fs with
    | mk r fs1 =>
      cases r with
      | error e => left; simp [hw]
      | ok ignFile => right; exact ⟨ignFile, fs1, rfl, rfl, by simp [hw]⟩

theorem provision_isProvisioning (env : Env) (ign : defIgnition) (pool : StoragePool) (fs : FS) :
    ∀ e ∈ (provision env ign pool fs).trace, e.isProvisioning = true := by
  intro e he
  have hrep : ∀ n, e ∈ List.replicate n (Event.StoragePoolRefresh pool) →
      e.isProvisioning = true := by
    intro n hn
    rw [(List.mem_replicate.mp hn).2]; rfl
  obtain ⟨n, h | ⟨ignFile, fs1, -, -, h⟩⟩ := provision_trace env ign pool fs
  · rw [h] at he; exact hrep n he
  · rw [h] at he
    rcases List.mem_append.mp he with h1 | h2
    · exact hrep n h1
    · exact uploadIgnFile_isProvisioning _ _ _ _ _ _ e h2

/-- A run is one of three: nothing issued (nil connection), the pool lookup
alone (pool not found), or the pool lookup, `Lock`, the calls of `provision`
and `Unlock`. -/
theorem CreateAndUpload_trace (env : Env) (ign : defIgnition) (fs : FS) :
    (env.connIsNil = true ∧ (CreateAndUpload env ign fs).trace = []) ∨
    (env.connIsNil = false ∧ env.StoragePoolLookupByName ign.PoolName = none ∧
      (CreateAndUpload env ign fs).trace = [.StoragePoolLookupByName ign.PoolName]) ∨
    (∃ pool, env.connIsNil = false ∧ env.StoragePoolLookupByName ign.PoolName = some pool ∧
      (CreateAndUpload env ign fs).result = (provision env ign pool fs).result ∧
      (CreateAndUpload env ign fs).fs = (provision env ign pool fs).fs ∧
      (CreateAndUpload env ign fs).trace =
        Event.StoragePoolLookupByName ign.PoolName :: Event.Lock ign.PoolName ::
          ((provision env ign pool fs).trace ++ [Event.Unlock ign.PoolName])) := by
  unfold CreateAndUpload
  cases hc : env.connIsNil with
  | true => simp
  | false =>
    cases hp : env.StoragePoolLookupByName ign.PoolName with
    | none => simp
    | some pool => simp

/-- The two returns that precede the lock: a nil connection gives the
nil-connection error, a failed pool lookup the pool-not-found error; neither
touches the filesystem. -/
theorem CreateAndUpload_early_returns (env : Env) (ign : defIgnition) (fs : FS) :
    (env.connIsNil = true →
      (CreateAndUpload env ign fs).result = .error .libVirtConIsNil ∧
      (CreateAndUpload env ign fs).trace = []) ∧
    (env.connIsNil = false → env.StoragePoolLookupByName ign.PoolName = none →
      (CreateAndUpload env ign fs).result = .error (.cantFindPool ign.PoolName) ∧
      (CreateAndUpload env ign fs).trace = [Event.StoragePoolLookupByName ign.PoolName]) := by
  constructor
  · intro hc
    simp [CreateAndUpload, hc]
  · intro hc hp
    simp [CreateAndUpload, hc, hp]

theorem run_of_not_isLock (t : LockTable) (es : List Event)
    (h : ∀ e ∈ es, e.isLock = false) : LockTable.run t es = some t := by
  induction es with
  | nil => rfl
  | cons e es ih =>
    have he : e.isLock = false := h e (by simp)
    have hstep : t.step e = some t := by
      cases e <;> simp [Event.isLock] at he <;> rfl
    simp [LockTable.run, hstep, ih (fun x hx => h x (List.mem_cons_of_mem _ hx))]

theorem run_append (t : LockTable) (es fs : List Event) :
    LockTable.run t (es ++ fs) = (LockTable.run t es).bind (fun t1 => LockTable.run t1 fs) := by
  induction es generalizing t with
  | nil => simp [LockTable.run]
  | cons e es ih =>
    simp only [List.cons_append, LockTable.run]
    cases t.step e with
    | none => rfl
    | some t1 => simp [ih]

theorem isLock_of_isProvisioning {e : Event} (h : e.isProvisioning = true) : e.isLock = false := by
  cases e <;> simp [Event.isProvisioning] at h <;> rfl

/-- The lock table after `Lock k`, calls that are not lock calls, and `Unlock k`. -/
theorem run_lock_scope (t : LockTable) (k : String) (mid : List Event)
    (hmid : ∀ e ∈ mid, e.isLock = false) :
    LockTable.run t (Event.Lock k :: (mid ++ [Event.Unlock k])) =
      if t k then none else some t := by
  cases hk : t k with
  | true => simp [LockTable.run, LockTable.step, hk]
  | false =>
    simp only [LockTable.run, LockTable.step, hk, Bool.false_eq_true, if_false, Option.bind]
    rw [run_append, run_of_not_isLock _ _ hmid]
    simp only [Option.bind, LockTable.run, LockTable.step, if_true]
    congr 1
    funext q
    by_cases hq : q = k
    · simp [hq, hk]
    · simp [hq]

/-! ## Provisioner: the pool lock -/

/-- C8. The lock calls of a run are none at all on the two returns that
precede the acquisition (nil connection, pool not found) and otherwise exactly
one `Lock` of `PoolName` followed by exactly one `Unlock` of `PoolName`,
whatever the later steps do; the `Unlock` is the last call of the run; a run
started with the lock of `PoolName` free comes back, and the lock table it
leaves is the one it found. -/
theorem lock_released_on_every_exit (env : Env) (ign : defIgnition) (fs : FS) :
    ((CreateAndUpload env ign fs).trace.filter Event.isLock =
      if env.connIsNil = true ∨ env.StoragePoolLookupByName ign.PoolName = none then []
      else [Event.Lock ign.PoolName, Event.Unlock ign.PoolName]) ∧
    ((CreateAndUpload env ign fs).trace.filter Event.isLock ≠ [] →
      (CreateAndUpload env ign fs).trace.getLast? = some (Event.Unlock ign.PoolName)) ∧
    (∀ t : LockTable, t ign.PoolName = false →
      LockTable.run t (CreateAndUpload env ign fs).trace = some t) ∧
    (∀ t t2 : LockTable,
      LockTable.run t (CreateAndUpload env ign fs).trace = some t2 → t2 = t) := by
  rcases CreateAndUpload_trace env ign fs with ⟨hc, ht⟩ | ⟨hc, hp, ht⟩ | ⟨pool, hc, hp, -, -, ht⟩
  · rw [ht]
    refine ⟨by simp [hc], by simp, fun t _ => rfl, ?_⟩
    intro t t2 h
    simpa [LockTable.run] using h.symm
  · rw [ht]
    refine ⟨by simp [hc, hp, Event.isLock], by simp [Event.isLock], fun t _ => rfl, ?_⟩
    intro t t2 h
    simpa [LockTable.run, LockTable.step] using h.symm
  · rw [ht]
    have hmid : ∀ e ∈ (provision env ign pool fs).trace, e.isLock = false :=
      fun e he => isLock_of_isProvisioning (provision_isProvisioning env ign pool fs e he)
    have hfil : (provision env ign pool fs).trace.filter Event.isLock = [] := by
      rw [List.filter_eq_nil_iff]
      intro e he
      simp [hmid e he]
    have hrun : ∀ t : LockTable,
        LockTable.run t (Event.StoragePoolLookupByName ign.PoolName :: Event.Lock ign.PoolName ::
          ((provision env ign pool fs).trace ++ [Event.Unlock ign.PoolName])) =
        if t ign.PoolName then none else some t := by
      intro t
      rw [← run_lock_scope t ign.PoolName _ hmid]
      simp [LockTable.run, LockTable.step]
    refine ⟨?_, ?_, ?_, ?_⟩
    · simp [hc, hp, Event.isLock, List.filter_cons, hfil]
    · intro _
      rw [show Event.StoragePoolLookupByName ign.PoolName :: Event.Lock ign.PoolName ::
          ((provision env ign pool fs).trace ++ [Event.Unlock ign.PoolName]) =
          (Event.StoragePoolLookupByName ign.PoolName :: Event.Lock ign.PoolName ::
            (provision env ign pool fs).trace) ++ [Event.Unlock ign.PoolName] by simp]
      exact List.getLast?_concat _
    · intro t hfree
      rw [hrun t, hfree]
      simp
    · intro t t2 h
      rw [hrun t] at h
      cases hk : t ign.PoolName with
      | true => simp [hk] at h
      | false => simpa [hk] using h.symm

theorem lock_released_on_every_exit_witness :
    (CreateAndUpload sampleEnv invalidRequest sampleFS).trace.filter Event.isLock =
      [Event.Lock "default", Event.Unlock "default"] ∧
    (CreateAndUpload sampleEnv invalidRequest sampleFS).trace.getLast? =
      some (Event.Unlock "default") ∧
    LockTable.run (fun _ => false) (CreateAndUpload sampleEnv invalidRequest sampleFS).trace =
      some (fun _ => false) :=
  ⟨(lock_released_on_every_exit sampleEnv invalidRequest sampleFS).1,
   (lock_released_on_every_exit sampleEnv invalidRequest sampleFS).2.1 (by decide),
   (lock_released_on_every_exit sampleEnv invalidRequest sampleFS).2.2.1 (fun _ => false) rfl⟩

/-! ## Provisioner: the lock scope -/

/-- Inside `mid ++ [Unlock k]`, with `mid` made of provisioning calls: at the
position of a provisioning call no lock call came before and `Unlock k` comes
after. -/
theorem provisioning_before_unlock (k : String) (mid : List Event)
    (hmid : ∀ e ∈ mid, e.isProvisioning = true) (i : Nat) (e : Event)
    (h : (mid ++ [Event.Unlock k])[i]? = some e) (he : e.isProvisioning = true) :
    ((mid ++ [Event.Unlock k]).take i).count (Event.Lock k) = 0 ∧
    ((mid ++ [Event.Unlock k]).take i).count (Event.Unlock k) = 0 ∧
    Event.Unlock k ∈ (mid ++ [Event.Unlock k]).drop (i + 1) := by
  induction mid generalizing i with
  | nil =>
    cases i with
    | zero =>
      simp at h
      subst h
      simp [Event.isProvisioning] at he
    | succ j => simp at h
  | cons m ms ih =>
    have hm : m.isProvisioning = true := hmid m (by simp)
    have hms : ∀ e ∈ ms, e.isProvisioning = true :=
      fun e he => hmid e (List.mem_cons_of_mem _ he)
    cases i with
    | zero => simp
    | succ j =>
      have hj : (ms ++ [Event.Unlock k])[j]? = some e := by simpa using h
      obtain ⟨h1, h2, h3⟩ := ih hms j hj
      have hmL : m ≠ Event.Lock k := by
        intro e; rw [e] at hm; simp [Event.isProvisioning] at hm
      have hmU : m ≠ Event.Unlock k := by
        intro e; rw [e] at hm; simp [Event.isProvisioning] at hm
      refine ⟨?_, ?_, ?_⟩
      · simp only [List.cons_append, List.take_succ_cons]
        rw [List.count_cons_of_ne hmL.symm, h1]
      · simp only [List.cons_append, List.take_succ_cons]
        rw [List.count_cons_of_ne hmU.symm, h2]
      · simpa using h3

/-- C10, as stated, fails: in the run of the first scenario the first backend
call, the lookup of the pool by name, is issued at position 0, before the
`Lock` at position 1, so outside the lock scope. -/
theorem pool_lookup_outside_lock_scope :
    (CreateAndUpload sampleEnv inlineRequest sampleFS).trace[0]? =
      some (Event.StoragePoolLookupByName inlineRequest.PoolName) ∧
    (CreateAndUpload sampleEnv inlineRequest sampleFS).trace[1]? =
      some (Event.Lock inlineRequest.PoolName) ∧
    (Event.StoragePoolLookupByName inlineRequest.PoolName).isBackend = true ∧
    heldAt inlineRequest.PoolName (CreateAndUpload sampleEnv inlineRequest sampleFS).trace 0
      = false := by
  decide

/-- C10, amended. Every pool refresh, volume creation and upload that
`CreateAndUpload` issues lies inside the scope of the lock keyed by `PoolName`;
the only other backend call, the lookup of the pool by name, is the first call
of the run and is issued before the lock is acquired. -/
theorem provisioning_inside_lock_scope (env : Env) (ign : defIgnition) (fs : FS)
    (i : Nat) (e : Event)
    (h : (CreateAndUpload env ign fs).trace[i]? = some e) (hb : e.isBackend = true) :
    (e.isProvisioning = true →
      heldAt ign.PoolName (CreateAndUpload env ign fs).trace i = true) ∧
    (e.isProvisioning = false →
      e = Event.StoragePoolLookupByName ign.PoolName ∧ i = 0 ∧
      heldAt ign.PoolName (CreateAndUpload env ign fs).trace i = false) := by
  rcases CreateAndUpload_trace env ign fs with ⟨hc, ht⟩ | ⟨hc, hp, ht⟩ | ⟨pool, hc, hp, -, -, ht⟩
  · rw [ht] at h; simp at h
  · rw [ht] at h ⊢
    cases i with
    | zero =>
      simp at h
      subst h
      simp [heldAt, Event.isProvisioning]
    | succ j => simp at h
  · rw [ht] at h ⊢
    have hmid := provision_isProvisioning env ign pool fs
    cases i with
    | zero =>
      simp at h
      subst h
      simp [heldAt, Event.isProvisioning]
    | succ j =>
      cases j with
      | zero =>
        simp at h
        subst h
        simp [Event.isBackend] at hb
      | succ j =>
        have hj : ((provision env ign pool fs).trace ++ [Event.Unlock ign.PoolName])[j]?
            = some e := by simpa using h
        by_cases hpe : e.isProvisioning = true
        · obtain ⟨h1, h2, h3⟩ := provisioning_before_unlock ign.PoolName _ hmid j e hj hpe
          refine ⟨fun _ => ?_, fun hn => ?_⟩
          · simp only [heldAt, List.take_succ_cons, List.drop_succ_cons]
            rw [List.count_cons_of_ne (by simp), List.count_cons_self,
              List.count_cons_of_ne (by simp), List.count_cons_of_ne (by simp), h1, h2]
            simpa using h3
          · rw [hpe] at hn; simp at hn
        · exfalso
          rcases List.mem_append.mp (List.getElem?_mem hj) with hm | hm
          · exact hpe (hmid e hm)
          · simp at hm
            subst hm
            simp [Event.isBackend] at hb

theorem provisioning_inside_lock_scope_witness :
    (CreateAndUpload sampleEnv inlineRequest sampleFS).trace[3]? =
      some (Event.StorageVolCreateXML samplePool
        { Name := "ign", CapacityUnit := "B", CapacityValue := 32, TargetFormatType := "raw",
          Rest := "mode=644" }) ∧
    heldAt inlineRequest.PoolName (CreateAndUpload sampleEnv inlineRequest sampleFS).trace 3
      = true :=
  ⟨by decide,
   (provisioning_inside_lock_scope sampleEnv inlineRequest sampleFS 3
      (Event.StorageVolCreateXML samplePool
        { Name := "ign", CapacityUnit := "B", CapacityValue := 32, TargetFormatType := "raw",
          Rest := "mode=644" }) (by decide) (by decide)).1 (by decide)⟩

/-! ## Provisioner: invalid content -/

theorem waitForSuccess_made (f : Nat → Bool) (n made : Nat)
    (h : (waitForSuccess f n made).1 = true) : made < (waitForSuccess f n made).2 := by
  induction n generalizing made with
  | zero => simp [waitForSuccess] at h
  | succ n ih =>
    unfold waitForSuccess at h ⊢
    cases hf : f made with
    | true => simp
    | false =>
      simp only [hf, Bool.false_eq_true, if_false] at h ⊢
      exact Nat.lt_of_succ_lt (ih (made + 1) h)

/-- What `createFile` does with a `Content` that is neither a path nor JSON. -/
theorem createFile_invalid (env : Env) (ign : defIgnition) (fs : FS)
    (h1 : fs ign.Content = none) (h2 : env.CreateTemp ign.Name ≠ some ign.Content)
    (h3 : env.Unmarshal ign.Content = false) :
    createFile env ign fs =
      match CreateTemp env ign.Name fs with
      | none => (.error .creatingTmpFile, fs)
      | some tempFile => (.error (.invalidContent ign.Content), fs.write tempFile []) := by
  unfold createFile
  cases hc : CreateTemp env ign.Name fs with
  | none => rfl
  | some tempFile =>
    have hne : ign.Content ≠ tempFile := by
      intro e
      rw [← e] at hc
      exact h2 (CreateTemp_fresh hc).1
    have hs : Stat (fs.write tempFile []) ign.Content = false := by
      simp [Stat, FS.write, hne, h1]
    simp [classify, hs, h3]

/-- The result and the calls of `provision` on invalid content. -/
theorem provision_invalid (env : Env) (ign : defIgnition) (pool : StoragePool) (fs : FS)
    (h1 : fs ign.Content = none) (h2 : env.CreateTemp ign.Name ≠ some ign.Content)
    (h3 : env.Unmarshal ign.Content = false) :
    (provision env ign pool fs).trace =
      List.replicate (waitForSuccess env.StoragePoolRefresh env.refreshAttempts 0).2
        (Event.StoragePoolRefresh pool) ∧
    (provision env ign pool fs).result =
      if (waitForSuccess env.StoragePoolRefresh env.refreshAttempts 0).1 = false then
        .error .refreshingPool
      else if CreateTemp env ign.Name fs = none then .error .creatingTmpFile
      else .error (.invalidContent ign.Content) := by
  unfold provision
  rw [createFile_invalid env ign fs h1 h2 h3]
  cases hw : (waitForSuccess env.StoragePoolRefresh env.refreshAttempts 0).1 with
  | false => simp [hw]
  | true =>
    cases hc : CreateTemp env ign.Name fs with
    | none => simp [hw]
    | some tempFile => simp [hw]

/-- C4, as stated, fails: on the content of scenario 3, which is neither a
path of the filesystem nor JSON, the run returns the invalid-content error
after two backend calls, the pool lookup and the pool refresh. -/
theorem invalid_content_reaches_backend :
    sampleFS invalidRequest.Content = none ∧
    sampleEnv.Unmarshal invalidRequest.Content = false ∧
    (CreateAndUpload sampleEnv invalidRequest sampleFS).result =
      .error (.invalidContent invalidRequest.Content) ∧
    (CreateAndUpload sampleEnv invalidRequest sampleFS).trace.filter Event.isBackend =
      [Event.StoragePoolLookupByName "default", Event.StoragePoolRefresh samplePool] ∧
    (CreateAndUpload sampleEnv invalidRequest sampleFS).trace.filter Event.isBackend ≠ [] := by
  decide

/-- C4, amended. For a `Content` that is not an existing path and on which
`json.Unmarshal` into the map reports an error (nothing is at `Content` before
the call and the temporary file drawn is not `Content` itself, so the stat made
once the temporary file exists fails), `CreateAndUpload` returns an error and
issues no volume creation and no upload: its backend calls are the pool lookup
and the pool refreshes, nothing when the connection is nil. The error is that
of the first step that failed: the nil connection, else the pool lookup, else
the refresh, else the creation of the temporary file, else the invalid content;
so it is the invalid-content one exactly when the four earlier steps succeeded,
and by then the pool lookup and a pool refresh have been issued. -/
theorem invalid_content_creates_no_volume (env : Env) (ign : defIgnition) (fs : FS)
    (h1 : fs ign.Content = none) (h2 : env.CreateTemp ign.Name ≠ some ign.Content)
    (h3 : env.Unmarshal ign.Content = false) :
    isErr (CreateAndUpload env ign fs).result = true ∧
    (∀ e ∈ (CreateAndUpload env ign fs).trace, e.isBackend = true →
      e = Event.StoragePoolLookupByName ign.PoolName ∨ ∃ pool, e = Event.StoragePoolRefresh pool) ∧
    ((CreateAndUpload env ign fs).result = .error (.invalidContent ign.Content) ↔
      env.connIsNil = false ∧ env.StoragePoolLookupByName ign.PoolName ≠ none ∧
      (waitForSuccess env.StoragePoolRefresh env.refreshAttempts 0).1 = true ∧
      CreateTemp env ign.Name fs ≠ none) ∧
    ((CreateAndUpload env ign fs).result = .error (.invalidContent ign.Content) →
      Event.StoragePoolLookupByName ign.PoolName ∈ (CreateAndUpload env ign fs).trace ∧
      ∃ pool, Event.StoragePoolRefresh pool ∈ (CreateAndUpload env ign fs).trace) ∧
    ((CreateAndUpload env ign fs).result =
      if env.connIsNil = true then .error .libVirtConIsNil
      else if env.StoragePoolLookupByName ign.PoolName = none then
        .error (.cantFindPool ign.PoolName)
      else if (waitForSuccess env.StoragePoolRefresh env.refreshAttempts 0).1 = false then
        .error .refreshingPool
      else if CreateTemp env ign.Name fs = none then .error .creatingTmpFile
      else .error (.invalidContent ign.Content)) ∧
    ((CreateAndUpload env ign fs).trace.filter Event.isBackend =
      if env.connIsNil = true then []
      else Event.StoragePoolLookupByName ign.PoolName ::
        match env.StoragePoolLookupByName ign.PoolName with
        | none => []
        | some pool =>
          List.replicate (waitForSuccess env.StoragePoolRefresh env.refreshAttempts 0).2
            (Event.StoragePoolRefresh pool)) := by
  rcases CreateAndUpload_trace env ign fs with ⟨hc, ht⟩ | ⟨hc, hp, ht⟩ | ⟨pool, hc, hp, hr, -, ht⟩
  · have hres : (CreateAndUpload env ign fs).result = .error .libVirtConIsNil := by
      simp [CreateAndUpload, hc]
    rw [ht, hres]
    simp [isErr, hc]
  · have hres : (CreateAndUpload env ign fs).result = .error (.cantFindPool ign.PoolName) := by
      simp [CreateAndUpload, hc, hp]
    rw [ht, hres]
    simp [isErr, hc, hp, Event.isBackend]
  · obtain ⟨hpt, hpr⟩ := provision_invalid env ign pool fs h1 h2 h3
    have hfil : (Event.StoragePoolLookupByName ign.PoolName :: Event.Lock ign.PoolName ::
        (List.replicate (waitForSuccess env.StoragePoolRefresh env.refreshAttempts 0).2
          (Event.StoragePoolRefresh pool) ++ [Event.Unlock ign.PoolName])).filter Event.isBackend =
        Event.StoragePoolLookupByName ign.PoolName ::
          List.replicate (waitForSuccess env.StoragePoolRefresh env.refreshAttempts 0).2
            (Event.StoragePoolRefresh pool) := by
      simp [List.filter_cons, List.filter_append, List.filter_replicate, Event.isBackend]
    rw [ht, hr, hpr, hpt, hfil]
    cases hw : (waitForSuccess env.StoragePoolRefresh env.refreshAttempts 0).1 with
    | false =>
      refine ⟨by simp [isErr], ?_, by simp, by simp, by simp [hc, hp], by simp [hc, hp]⟩
      intro e he _
      simp only [List.mem_cons, List.mem_append, List.mem_replicate, List.not_mem_nil,
        or_false] at he
      rcases he with he | he | ⟨-, he⟩ | he
      · exact Or.inl he
      · subst he; simp [Event.isBackend] at *
      · exact Or.inr ⟨pool, he⟩
      · subst he; simp [Event.isBackend] at *
    | true =>
      have hpos := waitForSuccess_made env.StoragePoolRefresh env.refreshAttempts 0 hw
      refine ⟨?_, ?_, ?_, ?_, by simp [hc, hp], by simp [hc, hp]⟩
      · cases hct : CreateTemp env ign.Name fs <;> simp [isErr]
      · intro e he _
        simp only [List.mem_cons, List.mem_append, List.mem_replicate, List.not_mem_nil,
        or_false] at he
        rcases he with he | he | ⟨-, he⟩ | he
        · exact Or.inl he
        · subst he; simp [Event.isBackend] at *
        · exact Or.inr ⟨pool, he⟩
        · subst he; simp [Event.isBackend] at *
      · cases hct : CreateTemp env ign.Name fs <;> simp [hc, hp]
      · intro _
        refine ⟨by simp, pool, ?_⟩
        exact List.mem_cons_of_mem _ (List.mem_cons_of_mem _ (List.mem_append_left _
          (List.mem_replicate.mpr ⟨Nat.pos_iff_ne_zero.mp hpos, rfl⟩)))

theorem invalid_content_creates_no_volume_witness :
    sampleFS invalidRequest.Content = none ∧
    sampleEnv.Unmarshal invalidRequest.Content = false ∧
    (CreateAndUpload sampleEnv invalidRequest sampleFS).result =
      .error (.invalidContent invalidRequest.Content) ∧
    (CreateAndUpload sampleEnv invalidRequest sampleFS).trace.filter Event.isBackend =
      [Event.StoragePoolLookupByName "default", Event.StoragePoolRefresh samplePool] ∧
    isErr (CreateAndUpload sampleEnv invalidRequest sampleFS).result = true ∧
    (∀ e ∈ (CreateAndUpload sampleEnv invalidRequest sampleFS).trace, e.isBackend = true →
      e = Event.StoragePoolLookupByName invalidRequest.PoolName ∨
      ∃ pool, e = Event.StoragePoolRefresh pool) :=
  ⟨by decide, by decide,
   (invalid_content_creates_no_volume sampleEnv invalidRequest sampleFS
      (by decide) (by decide) (by decide)).2.2.2.2.1,
   (invalid_content_creates_no_volume sampleEnv invalidRequest sampleFS
      (by decide) (by decide) (by decide)).2.2.2.2.2,
   (invalid_content_creates_no_volume sampleEnv invalidRequest sampleFS
      (by decide) (by decide) (by decide)).1,
   (invalid_content_creates_no_volume sampleEnv invalidRequest sampleFS
      (by decide) (by decide) (by decide)).2.1⟩

/-! ## Provisioner: the temporary file -/

/-- When `createFile` fails after `CreateTemp` made the temporary file, the
file is still there when `createFile` returns. -/
theorem createFile_error_keeps_temp_file (env : Env) (ign : defIgnition) (fs : FS)
    (tempFile : String) (e : Err)
    (hct : CreateTemp env ign.Name fs = some tempFile)
    (hcf : (createFile env ign fs).1 = .error e) :
    (createFile env ign fs).2 tempFile ≠ none := by
  unfold createFile at hcf ⊢
  simp only [hct] at hcf ⊢
  cases hcl : classify env ign (fs.write tempFile []) with
  | error e2 => simp [write_same]
  | ok file =>
    simp only [hcl] at hcf ⊢
    cases file with
    | false =>
      cases hw : env.WriteStringErr with
      | none => simp [hw] at hcf
      | some n => simp [write_same]
    | true =>
      cases ho : env.OpenErr with
      | true => simp [write_same]
      | false =>
        cases hcp : env.CopyErr with
        | none => simp [ho, hcp] at hcf
        | some n => simp [write_same]

/-- The removal of the temporary file is deferred only once `createFile` has
returned without error: a run in which `createFile` fails returns its error and
leaves the filesystem as `createFile` left it, temporary file included. -/
theorem CreateAndUpload_createFile_error (env : Env) (ign : defIgnition) (fs : FS)
    (pool : StoragePool) (tempFile : String) (e : Err)
    (hc : env.connIsNil = false) (hp : env.StoragePoolLookupByName ign.PoolName = some pool)
    (hw : (waitForSuccess env.StoragePoolRefresh env.refreshAttempts 0).1 = true)
    (hct : CreateTemp env ign.Name fs = some tempFile)
    (hcf : (createFile env ign fs).1 = .error e) :
    (CreateAndUpload env ign fs).result = .error e ∧
    (CreateAndUpload env ign fs).fs = (createFile env ign fs).2 ∧
    (CreateAndUpload env ign fs).fs tempFile ≠ none := by
  have hkeep := createFile_error_keeps_temp_file env ign fs tempFile e hct hcf
  cases hcr : createFile env ign fs with
  | mk r fs1 =>
    rw [hcr] at hcf hkeep
    simp only at hcf hkeep
    subst hcf
    simp [CreateAndUpload, hc, hp, provision, hw, hcr, hkeep]

/-- When `createFile` succeeds and the deferred `os.Remove` succeeds, the
temporary file is gone when `CreateAndUpload` returns, whatever the later steps
did. -/
theorem CreateAndUpload_removes_temp_file (env : Env) (ign : defIgnition) (fs fs1 : FS)
    (pool : StoragePool) (ignFile : String)
    (hc : env.connIsNil = false) (hp : env.StoragePoolLookupByName ign.PoolName = some pool)
    (hw : (waitForSuccess env.StoragePoolRefresh env.refreshAttempts 0).1 = true)
    (hcf : createFile env ign fs = (.ok ignFile, fs1)) (hr : env.RemoveErr = false) :
    (CreateAndUpload env ign fs).fs ignFile = none := by
  simp [CreateAndUpload, hc, hp, provision, hw, hcf, Remove, hr, FS.unlink]

/-- C5: the run of scenario 3. The temporary file `/tmp/ign123` does not exist
before the call, `createFile` creates it and then fails on the invalid content,
`CreateAndUpload` returns that error, and the file still exists afterwards
although `os.Remove` would not have failed. -/
theorem temp_file_left_behind :
    sampleFS "/tmp/ign123" = none ∧
    CreateTemp sampleEnv invalidRequest.Name sampleFS = some "/tmp/ign123" ∧
    (createFile sampleEnv invalidRequest sampleFS).1 =
      .error (.invalidContent invalidRequest.Content) ∧
    (CreateAndUpload sampleEnv invalidRequest sampleFS).result =
      .error (.invalidContent invalidRequest.Content) ∧
    sampleEnv.RemoveErr = false ∧
    (CreateAndUpload sampleEnv invalidRequest sampleFS).fs "/tmp/ign123" = some [] := by
  decide

/-! ## Provisioner: the volume descriptor -/

/-- C6. Every descriptor `CreateAndUpload` sends to the backend has the
request's `Name`, the unit `B`, the format `raw`, and as capacity the byte
length of the temporary file `createFile` produced: the byte length of
`Content` when the stat of `Content` failed (inline JSON), the byte length of
the file at `Content` when it succeeded. -/
theorem descriptor_capacity (env : Env) (ign : defIgnition) (fs : FS)
    (pool : StoragePool) (d : defVolume)
    (h : Event.StorageVolCreateXML pool d ∈ (CreateAndUpload env ign fs).trace) :
    d.Name = ign.Name ∧ d.CapacityUnit = "B" ∧ d.TargetFormatType = "raw" ∧
    ∃ ignFile bytes,
      (createFile env ign fs).1 = .ok ignFile ∧
      (createFile env ign fs).2 ignFile = some bytes ∧
      d.CapacityValue = bytes.length ∧
      (Stat (fs.write ignFile []) ign.Content = false →
        bytes = bytesOf ign.Content ∧ d.CapacityValue = ign.Content.utf8ByteSize) ∧
      (∀ b, (fs.write ignFile []) ign.Content = some b →
        bytes = b ∧ d.CapacityValue = b.length) ∧
      (∀ b, fs ign.Content = some b → d.CapacityValue = b.length) := by
  rcases CreateAndUpload_trace env ign fs with ⟨hc, ht⟩ | ⟨hc, hp, ht⟩ | ⟨pool2, hc, hp, -, -, ht⟩
  · rw [ht] at h; simp at h
  · rw [ht] at h; simp at h
  · rw [ht] at h
    simp only [List.mem_cons, List.mem_append, List.not_mem_nil, or_false, reduceCtorEq,
      false_or] at h
    obtain ⟨n, hpt | ⟨ignFile, fs1, hcf, -, hpt⟩⟩ := provision_trace env ign pool2 fs
    · rw [hpt] at h
      have := (List.mem_replicate.mp h).2
      simp at this
    · rw [hpt] at h
      rcases List.mem_append.mp h with hrep | hup
      · have := (List.mem_replicate.mp hrep).2
        simp at this
      · obtain ⟨hct, hbytes⟩ := createFile_ok hcf
        have hd : ∃ size, imgSize env fs1 ignFile = some size ∧
            d = { Name := ign.Name, CapacityUnit := "B", CapacityValue := size,
                  TargetFormatType := "raw", Rest := env.newDefVolume.Rest } := by
          rcases uploadIgnFile_calls env ign pool2 { env.newDefVolume with Name := ign.Name }
            ignFile fs1 with hu | ⟨size, hsz, hu | ⟨v, hu⟩⟩
          · rw [hu] at hup; simp at hup
          · rw [hu] at hup; simp at hup
            exact ⟨size, hsz, hup.2⟩
          · rw [hu] at hup; simp at hup
            exact ⟨size, hsz, hup.2⟩
        obtain ⟨size, hsz, hdeq⟩ := hd
        subst hdeq
        have hfresh := (CreateTemp_fresh hct).2
        have hsize : ∀ bytes, fs1 ignFile = some bytes → size = bytes.length := by
          intro bytes hb
          unfold imgSize at hsz
          cases hse : env.SizeErr with
          | true => simp [hse] at hsz
          | false => simpa [hse, hb] using hsz.symm
        refine ⟨rfl, rfl, rfl, ignFile, ?_⟩
        rcases hbytes with ⟨hs, -, hfs1⟩ | ⟨b, hb, hfs1⟩
        · refine ⟨bytesOf ign.Content, by rw [hcf], by rw [hcf]; exact hfs1,
            hsize _ hfs1, ?_, ?_, ?_⟩
          · intro _
            exact ⟨rfl, by simp only []; rw [hsize _ hfs1, bytesOf_length]⟩
          · intro b hb
            simp [Stat, hb] at hs
          · intro b hb
            have hne : ign.Content ≠ ignFile := by
              intro e; rw [e, hfresh] at hb; simp at hb
            simp [Stat, FS.write, hne, hb] at hs
        · refine ⟨b, by rw [hcf], by rw [hcf]; exact hfs1, hsize _ hfs1, ?_, ?_, ?_⟩
          · intro hs
            simp [Stat, hb] at hs
          · intro b2 hb2
            rw [hb] at hb2
            have e : b = b2 := by simpa using hb2
            subst e
            exact ⟨rfl, hsize _ hfs1⟩
          · intro b2 hb2
            have hne : ign.Content ≠ ignFile := by
              intro e; rw [e, hfresh] at hb2; simp at hb2
            have e : b = b2 := by
              have : (fs.write ignFile []) ign.Content = some b2 := by
                simp [FS.write, hne, hb2]
              rw [hb] at this
              simpa using this
            subst e
            exact hsize _ hfs1

set_option maxRecDepth 100000 in
theorem descriptor_capacity_witness :
    (Event.StorageVolCreateXML samplePool
        { Name := "ign", CapacityUnit := "B", CapacityValue := 32, TargetFormatType := "raw",
          Rest := "mode=644" } ∈ (CreateAndUpload sampleEnv inlineRequest sampleFS).trace ∧
      inlineRequest.Content.utf8ByteSize = 32) ∧
    (Event.StorageVolCreateXML samplePool
        { Name := "ign", CapacityUnit := "B", CapacityValue := 1024, TargetFormatType := "raw",
          Rest := "mode=644" } ∈ (CreateAndUpload sampleEnv fileRequest sampleFS).trace ∧
      (sampleFS fileRequest.Content).map List.length = some 1024) ∧
    (∃ ignFile bytes,
      (createFile sampleEnv inlineRequest sampleFS).1 = .ok ignFile ∧
      (createFile sampleEnv inlineRequest sampleFS).2 ignFile = some bytes ∧
      32 = bytes.length) :=
  ⟨⟨by decide, by decide⟩, ⟨by decide, by decide⟩,
   let t := descriptor_capacity sampleEnv inlineRequest sampleFS samplePool
      { Name := "ign", CapacityUnit := "B", CapacityValue := 32, TargetFormatType := "raw",
        Rest := "mode=644" } (by decide)
   match t.2.2.2 with
   | ⟨ignFile, bytes, h1, h2, h3, _⟩ => ⟨ignFile, bytes, h1, h2, h3⟩⟩

end Ignition
